import Mathlib

/-!
Shallow embedding of the request/response correlation engine of the
nx-request-api library (TypeScript), centred on the `SwitchBackend` class
(src/unnamed/part_000, lines 240-341), its inbound message dispatch handler
(constructor, lines 259-290), the `invoke` operation (lines 293-339), the
fire-and-forget `send` operation (src/unnamed/part_001, lines 327-330), the
`OkOrError` response parser (src/unnamed/part_002, lines 1-31) and the
`customRequest` facade decoding step (src/unnamed/part_000, lines 57-73).

Modelling conventions:
- Wire envelopes are carried as structured values.  `JSON.stringify` /
  `JSON.parse` of these flat envelopes are mutually inverse, so the model
  identifies a serialized envelope with the envelope value itself; an inbound
  event whose payload does not parse as JSON is represented by `none`.
- The JavaScript `Map<string, callback>` registry is an association list with
  `set` replacing an existing binding in place and `delete` removing it.
- The callbacks stored in the registry are represented by the data each
  closure captures (`CBEntry`): the per-id completion closure of `invoke`
  captures the `first_response` accumulator, the progress entry records
  whether a real user callback or the no-op was installed, and a `throwing`
  entry stands for an arbitrary registered callback whose invocation raises,
  which the dispatch handler must isolate (part_000 lines 277-281).
- Promise effects are returned explicitly: `invoke` returns whether the
  promise is pending or already rejected, and the dispatch handler returns an
  `Outcome` describing which branch ran and, on a terminal chunk, the
  envelope whose JSON stringification resolves the pending promise.
-/

namespace NxReq

/-- Inbound response envelope (wire shape, spec section 6): flat JSON object
with fields `id`, `message`, optional `more`, optional `ok`.  An absent field
is `none`. -/
structure Response where
  id : String
  message : String
  more : Option Bool := none
  ok : Option Bool := none
deriving Repr, DecidableEq

/-- Outbound message envelope.  Modelled from the spec: the `Message` class
(messages.ts) is not under src/; per spec sections 3 and 4.2 it carries a
unique identifier generated at construction, a call name and an optional
ordered argument list.  The generated identifier is modelled as an explicit
field; its freshness and distinctness from the reserved key `"progress"` are
hypotheses where a claim needs them. -/
structure Message where
  id : String
  call_name : String
  arguments : Option (List String) := none
deriving Repr, DecidableEq

/-- The data captured by a callback closure stored in the registry
(part_000 line 244: `Map<ID, function(received object)>`):
- `completion acc`: the per-id closure registered by `invoke`
  (part_000 lines 316-330), capturing the mutable `first_response`
  accumulator (`none` models the initial `null`);
- `progressCb real`: the `"progress"` entry (part_000 lines 301-313),
  `real = true` for the wrapper around a user-supplied progress callback
  (which catches its own parse failures, lines 303-309) and `real = false`
  for the installed no-op (line 312); neither raises when invoked;
- `throwing`: an arbitrary registered callback whose invocation raises,
  exercising the catch of part_000 lines 279-281. -/
inductive CBEntry where
  | completion (acc : Option Response)
  | progressCb (real : Bool)
  | throwing
deriving Repr, DecidableEq

/-- JavaScript `Map.get`: the value bound to `k`, if any. -/
def mapGet : List (String × CBEntry) → String → Option CBEntry
  | [], _ => none
  | (k', v) :: rest, k => if k' = k then some v else mapGet rest k

/-- JavaScript `Map.set`: replaces the binding of `k` in place, or appends a
new binding. -/
def mapSet : List (String × CBEntry) → String → CBEntry → List (String × CBEntry)
  | [], k, v => [(k, v)]
  | (k', v') :: rest, k, v =>
    if k' = k then (k, v) :: rest else (k', v') :: mapSet rest k v

/-- JavaScript `Map.delete`: removes the binding of `k`. -/
def mapDelete (m : List (String × CBEntry)) (k : String) : List (String × CBEntry) :=
  m.filter (fun p => p.1 ≠ k)

/-- The state of the correlation engine: the `callbacks` registry of
`SwitchBackend` (part_000 lines 240-244). -/
structure SwitchBackend where
  callbacks : List (String × CBEntry)
deriving Repr, DecidableEq

/-- The engine state at construction: an empty registry. -/
def SwitchBackend.init : SwitchBackend := ⟨[]⟩

/-- Terminality test of an inbound chunk, part_000 line 325:
`response.more === undefined || response.more == false`. -/
def isTerminal (r : Response) : Bool :=
  match r.more with
  | none => true
  | some b => !b

/-- One step of the accumulator logic of the per-id completion closure,
part_000 lines 318-324: the first chunk becomes the accumulator
(`first_response = response`), each later chunk appends its message
(`first_response.message += response.message`). -/
def accumulate (acc : Option Response) (r : Response) : Response :=
  match acc with
  | none => r
  | some fr => { fr with message := fr.message ++ r.message }

/-- Branch outcomes of the inbound dispatch handler, reported alongside the
new registry state.  `resolvedO id p` means the pending promise for `id` was
resolved with `JSON.stringify p` (part_000 line 328). -/
inductive Outcome where
  | parseError
  | resolvedO (reqId : String) (payload : Response)
  | accumulated (reqId : String)
  | progressHandled
  | callbackFailed (reqId : String)
  | progressDropped
  | unknownId (reqId : String)
deriving Repr, DecidableEq

/-- The inbound dispatch handler on a successfully parsed envelope
(part_000 lines 275-286), together with the body of whichever registered
closure it invokes:
- a `completion` entry runs the closure of part_000 lines 316-330:
  accumulate, then on a terminal chunk delete the per-id entry (line 326)
  and the progress entry (line 327) and resolve (line 328);
- a `progressCb` entry runs without raising and without touching the
  registry (lines 303-312);
- a `throwing` entry raises; the handler catches and logs (lines 279-281);
- with no entry, id `"progress"` is dropped with a debug log (lines
  282-283), any other id is dropped with the unknown-ID log (lines 284-286). -/
def handleResponse (st : SwitchBackend) (r : Response) : SwitchBackend × Outcome :=
  match mapGet st.callbacks r.id with
  | some (CBEntry.completion acc) =>
    let fr := accumulate acc r
    if isTerminal r then
      (⟨mapDelete (mapDelete st.callbacks r.id) "progress"⟩, Outcome.resolvedO r.id fr)
    else
      (⟨mapSet st.callbacks r.id (CBEntry.completion (some fr))⟩, Outcome.accumulated r.id)
  | some (CBEntry.progressCb _) => (st, Outcome.progressHandled)
  | some CBEntry.throwing => (st, Outcome.callbackFailed r.id)
  | none =>
    if r.id = "progress" then (st, Outcome.progressDropped)
    else (st, Outcome.unknownId r.id)

/-- The full inbound dispatch handler (part_000 lines 259-290): `none` models
an event whose payload fails `JSON.parse`, which is logged and dropped
(lines 266-273). -/
def handleEvent (st : SwitchBackend) (data : Option Response) : SwitchBackend × Outcome :=
  match data with
  | none => (st, Outcome.parseError)
  | some r => handleResponse st r

/-- Dispatch of a list of inbound events in arrival order, collecting the
outcome of each. -/
def runEvents (st : SwitchBackend) : List Response → SwitchBackend × List Outcome
  | [] => (st, [])
  | r :: rs =>
    let p := handleResponse st r
    let q := runEvents p.1 rs
    (q.1, p.2 :: q.2)

/-- Result of `invoke` as seen by the caller: the returned promise is either
still pending or was rejected synchronously from the catch branch. -/
inductive InvokeResult where
  | pending
  | rejected (diagnostic : String)
deriving Repr, DecidableEq

/-- The `invoke` operation, part_000 lines 293-339.  `hasProgress` records
whether a `progressCallback` argument was supplied; `send` is the outcome of
handing the serialized envelope to the transport primitive
`skyline.sendMessage` (line 332), `Except.error e` modelling a raised
exception whose `JSON.stringify` is `e`.  Steps, in source order:
registers the progress entry (real wrapper, lines 301-309, or no-op,
lines 310-313), registers the per-id completion entry with `null`
accumulator (lines 314-330), then sends; if the send raises, the catch
branch (lines 334-338) deletes the progress entry and rejects with the
diagnostic string. -/
def invoke (st : SwitchBackend) (msg : Message) (hasProgress : Bool)
    (send : Except String Unit) : SwitchBackend × InvokeResult :=
  let cbs1 := mapSet st.callbacks "progress" (CBEntry.progressCb hasProgress)
  let cbs2 := mapSet cbs1 msg.id (CBEntry.completion none)
  match send with
  | Except.ok _ => (⟨cbs2⟩, InvokeResult.pending)
  | Except.error e =>
    (⟨mapDelete cbs2 "progress"⟩, InvokeResult.rejected ("Error: " ++ e))

/-- The fire-and-forget `send` operation of `SwitchBackend`
(src/unnamed/part_001, lines 327-330) composed with the skyline transport
shim `sendMessage` (src/src/index.ts, lines 3-11): serializes the envelope
and forwards it to `window.nx.sendMessage`.  `nxPresent` records whether the
host binding `window.nx` is defined; when absent the shim logs a warning and
returns (no throw).  The returned list holds the envelopes handed to the
host transport (identified with their serialized form). -/
def SwitchBackend.send (st : SwitchBackend) (nxPresent : Bool) (msg : Message) :
    SwitchBackend × List Message :=
  (st, if nxPresent then [msg] else [])

end NxReq

namespace NxReq

/-- JavaScript `String(x)` on the optional boolean field `ok` of a parsed
envelope: `String(undefined)`, `String(true)`, `String(false)`. -/
def stringOfOptBool : Option Bool → String
  | none => "undefined"
  | some true => "true"
  | some false => "false"

/-- Whether the second character list is a prefix of the first. -/
def listStartsWith : List Char → List Char → Bool
  | _, [] => true
  | [], _ :: _ => false
  | c :: cs, d :: ds => c = d && listStartsWith cs ds

/-- Whether the second character list occurs contiguously inside the first. -/
def listHasInfix : List Char → List Char → Bool
  | [], sub => sub.isEmpty
  | c :: cs, sub => listStartsWith (c :: cs) sub || listHasInfix cs sub

/-- JavaScript `s.includes(sub)`: `sub` occurs as a substring of `s`. -/
def jsIncludes (s sub : String) : Bool :=
  listHasInfix s.data sub.data

/-- JavaScript `s.toLowerCase()`, character by character. -/
def jsToLower (s : String) : String :=
  ⟨s.data.map Char.toLower⟩

/-- The `OkOrError` response parser (src/unnamed/part_002, lines 1-31). -/
structure OkOrError where
  id : String
  ok : Bool
  message : String
deriving Repr, DecidableEq

/-- The `OkOrError.from` parser applied to the (already JSON-parsed) resolved
envelope, part_002 lines 12-23:
`ok = String(object.ok).toLowerCase().includes("true")`, and `message` and
`id` are taken from the envelope. -/
def OkOrError.from (r : Response) : OkOrError :=
  { ok := jsIncludes (jsToLower (stringOfOptBool r.ok)) "true"
    message := r.message
    id := r.id }

/-- Accessor part_002 lines 25-27. -/
def OkOrError.isOk (o : OkOrError) : Bool := o.ok

/-- Accessor part_002 lines 29-31. -/
def OkOrError.getMessage (o : OkOrError) : String := o.message

/-- The decoding step of `BasicMessenger.customRequest`
(src/unnamed/part_000, lines 59-71) applied to the JSON value that the
supplier's promise resolved with: parse as `OkOrError`; resolve with the
message when `isOk`, otherwise reject with the diagnostic string built at
line 66. -/
def customRequestDecode (p : Response) : Except String String :=
  let response := OkOrError.from p
  if response.isOk then Except.ok response.getMessage
  else Except.error ("Operation failed on the backend, reason: " ++ response.message)

/-- Concatenation, in arrival order, of the message fields of a list of
chunks. -/
def joinMsgs : List Response → String
  | [] => ""
  | r :: rs => r.message ++ joinMsgs rs

/-- Folded accumulator of the per-id completion closure over a list of
chunks received before the terminal one. -/
def accFold (acc : Option Response) (rs : List Response) : Option Response :=
  rs.foldl (fun a r => some (accumulate a r)) acc

/-- The externally triggered transitions of the correlation engine: an
`invoke` call (with its supplied-progress-callback flag and the outcome of
the transport send) or an inbound event from the shared channel. -/
inductive Action where
  | inv (msg : Message) (hasProgress : Bool) (send : Except String Unit)
  | ev (data : Option Response)

/-- The state transition of one action. -/
def step (st : SwitchBackend) : Action → SwitchBackend
  | Action.inv m hp s => (invoke st m hp s).1
  | Action.ev d => (handleEvent st d).1

/-- The engine state after a trace of actions. -/
def run (st : SwitchBackend) (acts : List Action) : SwitchBackend :=
  acts.foldl step st

/-- The key set of a registry, in insertion order. -/
def keysOf (m : List (String × CBEntry)) : List String :=
  m.map Prod.fst

/-- Modelled from the spec: the spec's "identifiers currently awaiting
resolution" (section 3), refined by the spec's own error-condition note
(section 4.1: a failed transport send leaves the per-id entry registered).
`openReqFold x b acts` processes the trace left to right starting from open
status `b`: an `invoke` bearing identifier `x` opens the request — whether
or not its send succeeded, since `invoke` inserts the per-id entry before
sending — and a dispatched terminal chunk bearing `x` closes it. -/
def openReqFold (x : String) (b : Bool) : List Action → Bool
  | [] => b
  | Action.inv m _ _ :: rest => openReqFold x (if m.id = x then true else b) rest
  | Action.ev (some r) :: rest =>
    openReqFold x (if r.id = x ∧ isTerminal r = true then false else b) rest
  | Action.ev none :: rest => openReqFold x b rest

/-- A request with identifier `x` is open after a trace: some `invoke` bore
`x` and no terminal chunk bearing `x` was dispatched afterwards. -/
def openReq (x : String) (acts : List Action) : Bool :=
  openReqFold x false acts

/-! Helper lemmas about the registry operations. -/

theorem mapGet_set_self (m : List (String × CBEntry)) (k : String) (v : CBEntry) :
    mapGet (mapSet m k v) k = some v := by
  induction m with
  | nil => simp [mapGet, mapSet]
  | cons p rest ih =>
    by_cases h : p.1 = k
    · simp [mapSet, mapGet, h]
    · simp [mapSet, mapGet, h, ih]

theorem mapGet_set_ne (m : List (String × CBEntry)) (k k' : String) (v : CBEntry)
    (h : k' ≠ k) : mapGet (mapSet m k v) k' = mapGet m k' := by
  have h' : ¬k = k' := fun hh => h hh.symm
  induction m with
  | nil => simp [mapGet, mapSet, h']
  | cons p rest ih =>
    by_cases hk : p.1 = k
    · have hpk' : ¬p.1 = k' := by rw [hk]; exact h'
      simp [mapSet, mapGet, hk, h', hpk']
    · by_cases hk' : p.1 = k'
      · simp [mapSet, mapGet, hk, hk', h]
      · simp [mapSet, mapGet, hk, hk', ih]

theorem mapDelete_cons (p : String × CBEntry) (rest : List (String × CBEntry))
    (k : String) :
    mapDelete (p :: rest) k =
      if p.1 = k then mapDelete rest k else p :: mapDelete rest k := by
  by_cases h : p.1 = k <;> simp [mapDelete, h]

theorem mapGet_delete_self (m : List (String × CBEntry)) (k : String) :
    mapGet (mapDelete m k) k = none := by
  induction m with
  | nil => simp [mapGet, mapDelete]
  | cons p rest ih =>
    by_cases h : p.1 = k
    · simpa [mapDelete_cons, h] using ih
    · simpa [mapDelete_cons, mapGet, h] using ih

theorem mapGet_delete_ne (m : List (String × CBEntry)) (k k' : String)
    (h : k' ≠ k) : mapGet (mapDelete m k) k' = mapGet m k' := by
  have h' : ¬k = k' := fun hh => h hh.symm
  induction m with
  | nil => simp [mapGet, mapDelete]
  | cons p rest ih =>
    by_cases hk : p.1 = k
    · simpa [mapDelete_cons, mapGet, hk, h'] using ih
    · by_cases hk' : p.1 = k'
      · simp [mapDelete_cons, mapGet, hk, hk', h]
      · simpa [mapDelete_cons, mapGet, hk, hk'] using ih

theorem mem_keysOf_set (m : List (String × CBEntry)) (k : String) (v : CBEntry)
    (a : String) : a ∈ keysOf (mapSet m k v) ↔ a = k ∨ a ∈ keysOf m := by
  induction m with
  | nil => simp [mapSet, keysOf]
  | cons p rest ih =>
    by_cases hk : p.1 = k
    · simp only [mapSet, if_pos hk, keysOf, List.map_cons, List.mem_cons]
      rw [hk]
      tauto
    · simp only [mapSet, if_neg hk, keysOf, List.map_cons, List.mem_cons] at ih ⊢
      rw [ih]
      tauto

theorem keysOf_set_nodup (m : List (String × CBEntry)) (k : String) (v : CBEntry)
    (h : (keysOf m).Nodup) : (keysOf (mapSet m k v)).Nodup := by
  induction m with
  | nil => simp [mapSet, keysOf]
  | cons p rest ih =>
    simp only [keysOf, List.map_cons, List.nodup_cons] at h
    by_cases hk : p.1 = k
    · simp only [mapSet, if_pos hk, keysOf, List.map_cons, List.nodup_cons]
      exact ⟨by rw [← hk]; exact h.1, h.2⟩
    · simp only [mapSet, if_neg hk, keysOf, List.map_cons, List.nodup_cons]
      refine ⟨?_, ih h.2⟩
      intro hmem
      rcases (mem_keysOf_set rest k v p.1).1 hmem with hc | hc
      · exact hk hc
      · exact h.1 hc

theorem keysOf_delete (m : List (String × CBEntry)) (k : String) :
    keysOf (mapDelete m k) = (keysOf m).filter (fun a => a ≠ k) := by
  induction m with
  | nil => simp [mapDelete, keysOf]
  | cons p rest ih =>
    by_cases hk : p.1 = k <;>
      simp [mapDelete_cons, keysOf, hk, ih, List.filter_cons] at ih ⊢ <;>
      simpa using ih

theorem keysOf_delete_nodup (m : List (String × CBEntry)) (k : String)
    (h : (keysOf m).Nodup) : (keysOf (mapDelete m k)).Nodup := by
  rw [keysOf_delete]
  exact h.filter _

/-! Helper lemmas about string concatenation and the chunk accumulator. -/

theorem strAppendAssoc (a b c : String) : a ++ b ++ c = a ++ (b ++ c) := by
  apply String.ext
  simp [String.data_append]

theorem strAppendEmpty (s : String) : s ++ "" = s := by
  apply String.ext
  simp [String.data_append]

theorem accFold_some (a : Response) (rs : List Response) :
    accFold (some a) rs = some { a with message := a.message ++ joinMsgs rs } := by
  induction rs generalizing a with
  | nil => simp [accFold, joinMsgs, strAppendEmpty]
  | cons r rs ih =>
    show accFold (some (accumulate (some a) r)) rs = _
    rw [accumulate, ih]
    simp only [joinMsgs]
    rw [strAppendAssoc]

theorem accFold_none_cons (r : Response) (rs : List Response) :
    accFold none (r :: rs) = accFold (some r) rs := rfl

theorem strEmptyAppend (s : String) : "" ++ s = s := by
  apply String.ext
  simp [String.data_append]

/-- The message of the envelope that resolves the promise: the concatenation
of the messages of all chunks, in arrival order. -/
theorem accumulate_accFold_message (rs : List Response) (t : Response) :
    (accumulate (accFold none rs) t).message = joinMsgs rs ++ t.message := by
  cases rs with
  | nil => simp [accFold, accumulate, joinMsgs, strEmptyAppend]
  | cons f rest =>
    rw [accFold_none_cons, accFold_some]
    simp [accumulate, joinMsgs]

/-- Evaluation of one dispatch step on a pending completion entry fed a
non-terminal chunk. -/
theorem handleResponse_nonterminal (st : SwitchBackend) (acc : Option Response)
    (r : Response) (hid : mapGet st.callbacks r.id = some (CBEntry.completion acc))
    (hnt : isTerminal r = false) :
    handleResponse st r =
      (⟨mapSet st.callbacks r.id (CBEntry.completion (some (accumulate acc r)))⟩,
        Outcome.accumulated r.id) := by
  simp [handleResponse, hid, hnt]

/-- Evaluation of one dispatch step on a pending completion entry fed a
terminal chunk. -/
theorem handleResponse_terminal (st : SwitchBackend) (acc : Option Response)
    (t : Response) (hid : mapGet st.callbacks t.id = some (CBEntry.completion acc))
    (hterm : isTerminal t = true) :
    handleResponse st t =
      (⟨mapDelete (mapDelete st.callbacks t.id) "progress"⟩,
        Outcome.resolvedO t.id (accumulate acc t)) := by
  simp [handleResponse, hid, hterm]

/-- Running a list of non-terminal chunks addressed to a pending completion
entry: every outcome is an accumulation, the entry's accumulator is folded
over the chunks, and no other registry key changes. -/
theorem runEvents_nonterminal (st : SwitchBackend) (reqId : String)
    (acc : Option Response) (rs : List Response)
    (hid : mapGet st.callbacks reqId = some (CBEntry.completion acc))
    (hrs : ∀ r ∈ rs, r.id = reqId ∧ isTerminal r = false) :
    ∃ cbs', runEvents st rs = (⟨cbs'⟩, rs.map fun _ => Outcome.accumulated reqId) ∧
      mapGet cbs' reqId = some (CBEntry.completion (accFold acc rs)) ∧
      ∀ k, k ≠ reqId → mapGet cbs' k = mapGet st.callbacks k := by
  induction rs generalizing st acc with
  | nil =>
    refine ⟨st.callbacks, ?_, by simpa [accFold] using hid, fun k _ => rfl⟩
    simp [runEvents]
  | cons r rs ih =>
    have hr := hrs r (List.mem_cons_self r rs)
    have hrid : mapGet st.callbacks r.id = some (CBEntry.completion acc) := by
      rw [hr.1]; exact hid
    have hstep := handleResponse_nonterminal st acc r hrid hr.2
    set st1 : SwitchBackend :=
      ⟨mapSet st.callbacks r.id (CBEntry.completion (some (accumulate acc r)))⟩ with hst1
    have hid1 : mapGet st1.callbacks reqId =
        some (CBEntry.completion (some (accumulate acc r))) := by
      rw [hst1, hr.1]
      exact mapGet_set_self _ _ _
    obtain ⟨cbs', hrun, hget, hother⟩ :=
      ih st1 (some (accumulate acc r)) hid1 (fun x hx => hrs x (List.mem_cons_of_mem r hx))
    refine ⟨cbs', ?_, by simpa [accFold] using hget, ?_⟩
    · simp only [runEvents, hstep, hrun, hr.1, List.map_cons]
    · intro k hk
      rw [hother k hk, hst1]
      exact mapGet_set_ne _ _ _ _ (by rw [hr.1]; exact hk)

theorem runEvents_append (st : SwitchBackend) (xs ys : List Response) :
    runEvents st (xs ++ ys) =
      ((runEvents (runEvents st xs).1 ys).1,
        (runEvents st xs).2 ++ (runEvents (runEvents st xs).1 ys).2) := by
  induction xs generalizing st with
  | nil => simp [runEvents]
  | cons x xs ih => simp [runEvents, ih]

/-- Every branch of the dispatch handler preserves duplicate-freedom of the
registry's key set. -/
theorem handleResponse_nodup (st : SwitchBackend) (r : Response)
    (h : (keysOf st.callbacks).Nodup) :
    (keysOf (handleResponse st r).1.callbacks).Nodup := by
  unfold handleResponse
  cases hc : mapGet st.callbacks r.id with
  | none =>
    by_cases hp : r.id = "progress" <;> simp [hp, h]
  | some e =>
    cases e with
    | completion acc =>
      by_cases ht : isTerminal r
      · simpa [ht] using keysOf_delete_nodup _ _ (keysOf_delete_nodup _ _ h)
      · simpa [ht] using keysOf_set_nodup _ _ _ h
    | progressCb real => simpa using h
    | throwing => simpa using h

/-- Both branches of `invoke` preserve duplicate-freedom of the registry's
key set. -/
theorem invoke_nodup (st : SwitchBackend) (msg : Message) (hp : Bool)
    (send : Except String Unit) (h : (keysOf st.callbacks).Nodup) :
    (keysOf ((invoke st msg hp send).1).callbacks).Nodup := by
  cases send with
  | ok _ => exact keysOf_set_nodup _ _ _ (keysOf_set_nodup _ _ _ h)
  | error e =>
    exact keysOf_delete_nodup _ _ (keysOf_set_nodup _ _ _ (keysOf_set_nodup _ _ _ h))

theorem step_nodup (st : SwitchBackend) (a : Action)
    (h : (keysOf st.callbacks).Nodup) : (keysOf (step st a).callbacks).Nodup := by
  cases a with
  | inv m hp s => exact invoke_nodup st m hp s h
  | ev d =>
    cases d with
    | none => simpa [step, handleEvent] using h
    | some r => exact handleResponse_nodup st r h

theorem run_nodup (acts : List Action) (st : SwitchBackend)
    (h : (keysOf st.callbacks).Nodup) :
    (keysOf (run st acts).callbacks).Nodup := by
  induction acts generalizing st with
  | nil => exact h
  | cons a as ih => exact ih (step st a) (step_nodup st a h)

/-- An inbound chunk whose id matches no registered callback leaves the
registry unchanged (both the progress-dropped and the unknown-id branch
return without touching it). -/
theorem handleResponse_unmatched (st : SwitchBackend) (r : Response)
    (h : mapGet st.callbacks r.id = none) : (handleResponse st r).1 = st := by
  unfold handleResponse
  rw [h]
  by_cases hp : r.id = "progress" <;> simp [hp]

/-- Dispatching any inbound chunk leaves the binding of every key other than
the chunk's own id and the reserved progress key unchanged. -/
theorem handleResponse_other_key (st : SwitchBackend) (r : Response) (x : String)
    (hx : x ≠ "progress") (hrx : r.id ≠ x) :
    mapGet (handleResponse st r).1.callbacks x = mapGet st.callbacks x := by
  cases hm : mapGet st.callbacks r.id with
  | none => rw [handleResponse_unmatched st r hm]
  | some e =>
    cases e with
    | completion acc =>
      by_cases ht : isTerminal r = true
      · rw [handleResponse_terminal st acc r hm ht]
        show mapGet (mapDelete (mapDelete st.callbacks r.id) "progress") x = _
        rw [mapGet_delete_ne _ _ _ hx]
        exact mapGet_delete_ne _ _ _ (fun hh => hrx hh.symm)
      · have ht' : isTerminal r = false := by
          cases h2 : isTerminal r
          · rfl
          · exact absurd h2 ht
        rw [handleResponse_nonterminal st acc r hm ht']
        show mapGet (mapSet st.callbacks r.id (CBEntry.completion
          (some (accumulate acc r)))) x = _
        exact mapGet_set_ne _ _ _ _ (fun hh => hrx hh.symm)
    | progressCb real =>
      have hpr : handleResponse st r = (st, Outcome.progressHandled) := by
        simp [handleResponse, hm]
      rw [hpr]
    | throwing =>
      have hth : handleResponse st r = (st, Outcome.callbackFailed r.id) := by
        simp [handleResponse, hm]
      rw [hth]

/-- The registry binding of a non-progress identifier is characterized by
the open-request status along the trace: while open, the identifier is bound
to its completion entry; while closed, it is absent. -/
theorem openReqFold_registry (acts : List Action) (x : String) (hx : x ≠ "progress") :
    ∀ (st : SwitchBackend) (b : Bool),
      (b = true → ∃ acc, mapGet st.callbacks x = some (CBEntry.completion acc)) →
      (b = false → mapGet st.callbacks x = none) →
      ((openReqFold x b acts = true →
        ∃ acc, mapGet (run st acts).callbacks x = some (CBEntry.completion acc)) ∧
      (openReqFold x b acts = false →
        mapGet (run st acts).callbacks x = none)) := by
  induction acts with
  | nil => exact fun st b hbt hbf => ⟨hbt, hbf⟩
  | cons a as ih =>
    intro st b hbt hbf
    cases a with
    | inv m hp s =>
      refine ih (step st (Action.inv m hp s)) (if m.id = x then true else b) ?_ ?_
      · intro hbt'
        by_cases hmx : m.id = x
        · cases s with
          | ok u =>
            refine ⟨none, ?_⟩
            show mapGet (mapSet (mapSet st.callbacks "progress"
              (CBEntry.progressCb hp)) m.id (CBEntry.completion none)) x = _
            rw [← hmx]
            exact mapGet_set_self _ _ _
          | error e =>
            refine ⟨none, ?_⟩
            show mapGet (mapDelete (mapSet (mapSet st.callbacks "progress"
              (CBEntry.progressCb hp)) m.id (CBEntry.completion none)) "progress") x = _
            rw [mapGet_delete_ne _ _ _ hx, ← hmx]
            exact mapGet_set_self _ _ _
        · rw [if_neg hmx] at hbt'
          obtain ⟨acc, hacc⟩ := hbt hbt'
          refine ⟨acc, ?_⟩
          cases s with
          | ok u =>
            show mapGet (mapSet (mapSet st.callbacks "progress"
              (CBEntry.progressCb hp)) m.id (CBEntry.completion none)) x = _
            rw [mapGet_set_ne _ _ _ _ (fun hh => hmx hh.symm),
              mapGet_set_ne _ _ _ _ hx]
            exact hacc
          | error e =>
            show mapGet (mapDelete (mapSet (mapSet st.callbacks "progress"
              (CBEntry.progressCb hp)) m.id (CBEntry.completion none)) "progress") x = _
            rw [mapGet_delete_ne _ _ _ hx,
              mapGet_set_ne _ _ _ _ (fun hh => hmx hh.symm),
              mapGet_set_ne _ _ _ _ hx]
            exact hacc
      · intro hbf'
        by_cases hmx : m.id = x
        · rw [if_pos hmx] at hbf'
          exact absurd hbf' (by decide)
        · rw [if_neg hmx] at hbf'
          have hnone := hbf hbf'
          cases s with
          | ok u =>
            show mapGet (mapSet (mapSet st.callbacks "progress"
              (CBEntry.progressCb hp)) m.id (CBEntry.completion none)) x = _
            rw [mapGet_set_ne _ _ _ _ (fun hh => hmx hh.symm),
              mapGet_set_ne _ _ _ _ hx]
            exact hnone
          | error e =>
            show mapGet (mapDelete (mapSet (mapSet st.callbacks "progress"
              (CBEntry.progressCb hp)) m.id (CBEntry.completion none)) "progress") x = _
            rw [mapGet_delete_ne _ _ _ hx,
              mapGet_set_ne _ _ _ _ (fun hh => hmx hh.symm),
              mapGet_set_ne _ _ _ _ hx]
            exact hnone
    | ev d =>
      cases d with
      | none => exact ih st b hbt hbf
      | some r =>
        refine ih ((handleResponse st r).1)
          (if r.id = x ∧ isTerminal r = true then false else b) ?_ ?_
        · intro hbt'
          by_cases hc : r.id = x ∧ isTerminal r = true
          · rw [if_pos hc] at hbt'
            exact absurd hbt' (by decide)
          · rw [if_neg hc] at hbt'
            obtain ⟨acc, hacc⟩ := hbt hbt'
            by_cases hrx : r.id = x
            · have ht : isTerminal r = false := by
                cases hterm : isTerminal r
                · rfl
                · exact absurd ⟨hrx, hterm⟩ hc
              have hrid : mapGet st.callbacks r.id = some (CBEntry.completion acc) := by
                rw [hrx]; exact hacc
              rw [handleResponse_nonterminal st acc r hrid ht]
              refine ⟨some (accumulate acc r), ?_⟩
              show mapGet (mapSet st.callbacks r.id (CBEntry.completion
                (some (accumulate acc r)))) x = _
              rw [← hrx]
              exact mapGet_set_self _ _ _
            · rw [handleResponse_other_key st r x hx hrx]
              exact ⟨acc, hacc⟩
        · intro hbf'
          by_cases hc : r.id = x ∧ isTerminal r = true
          · obtain ⟨hrx, ht⟩ := hc
            by_cases hbv : b = true
            · obtain ⟨acc, hacc⟩ := hbt hbv
              have hrid : mapGet st.callbacks r.id = some (CBEntry.completion acc) := by
                rw [hrx]; exact hacc
              rw [handleResponse_terminal st acc r hrid ht]
              show mapGet (mapDelete (mapDelete st.callbacks r.id) "progress") x = _
              rw [mapGet_delete_ne _ _ _ hx, ← hrx]
              exact mapGet_delete_self _ _
            · have hnone := hbf (by revert hbv; cases b <;> simp)
              have hridn : mapGet st.callbacks r.id = none := by
                rw [hrx]; exact hnone
              rw [handleResponse_unmatched st r hridn]
              exact hnone
          · rw [if_neg hc] at hbf'
            have hnone := hbf hbf'
            by_cases hrx : r.id = x
            · have hridn : mapGet st.callbacks r.id = none := by
                rw [hrx]; exact hnone
              rw [handleResponse_unmatched st r hridn]
              exact hnone
            · rw [handleResponse_other_key st r x hx hrx]
              exact hnone

/-! Claim theorems. -/

/-- C1: for every request id, the per-id completion callback makes the first
chunk the accumulator and string-appends (not replaces) each later chunk's
message, and the promise returned by `invoke` resolves with the accumulated
envelope exactly when a chunk arrives whose `more` field is absent or false:
after `invoke`, dispatching non-terminal chunks `rs` followed by a terminal
chunk `t` for the request id yields one accumulation outcome per non-terminal
chunk and then a single resolution whose payload's message is the
concatenation of all the chunk messages in order; and dispatching any chunk
sequence containing no terminal chunk yields only accumulation outcomes and
no resolution. -/
theorem C1_chunk_accumulation (msg : Message) (hp : Bool) (rs : List Response)
    (t : Response) (_hmsg : msg.id ≠ "progress")
    (hrs : ∀ r ∈ rs, r.id = msg.id ∧ isTerminal r = false)
    (htid : t.id = msg.id) (hterm : isTerminal t = true) :
    (∃ p : Response,
      (runEvents ((invoke SwitchBackend.init msg hp (Except.ok ())).1) (rs ++ [t])).2 =
        (rs.map fun _ => Outcome.accumulated msg.id) ++ [Outcome.resolvedO msg.id p] ∧
      p.message = joinMsgs rs ++ t.message) ∧
    (∀ cs : List Response, (∀ r ∈ cs, r.id = msg.id ∧ isTerminal r = false) →
      (runEvents ((invoke SwitchBackend.init msg hp (Except.ok ())).1) cs).2 =
        cs.map fun _ => Outcome.accumulated msg.id) := by
  have hid0 : mapGet ((invoke SwitchBackend.init msg hp (Except.ok ())).1).callbacks
      msg.id = some (CBEntry.completion none) := mapGet_set_self _ _ _
  constructor
  · obtain ⟨cbs', hrun, hget, _⟩ := runEvents_nonterminal _ msg.id none rs hid0 hrs
    have hgett : mapGet cbs' t.id = some (CBEntry.completion (accFold none rs)) := by
      rw [htid]; exact hget
    refine ⟨accumulate (accFold none rs) t, ?_, accumulate_accFold_message rs t⟩
    rw [runEvents_append, hrun]
    simp [runEvents, handleResponse_terminal ⟨cbs'⟩ _ t hgett hterm, htid]
  · intro cs hcs
    obtain ⟨cbs', hrun, _, _⟩ := runEvents_nonterminal _ msg.id none cs hid0 hcs
    rw [hrun]

/-- Witness for C1 at the spec's concrete input: chunks `"ab"` (more true)
then `"cd"` (more false) for one id; the resolved payload's message is
`"abcd"`. -/
theorem C1_chunk_accumulation_witness :
    ((Message.mk "id1" "call" none).id ≠ "progress" ∧
      (∀ r ∈ [Response.mk "id1" "ab" (some true) none],
        r.id = (Message.mk "id1" "call" none).id ∧ isTerminal r = false) ∧
      (Response.mk "id1" "cd" (some false) none).id = (Message.mk "id1" "call" none).id ∧
      isTerminal (Response.mk "id1" "cd" (some false) none) = true) ∧
    ((∃ p : Response,
      (runEvents ((invoke SwitchBackend.init (Message.mk "id1" "call" none) false
          (Except.ok ())).1)
        ([Response.mk "id1" "ab" (some true) none] ++
          [Response.mk "id1" "cd" (some false) none])).2 =
        ([Response.mk "id1" "ab" (some true) none].map
          fun _ => Outcome.accumulated (Message.mk "id1" "call" none).id) ++
          [Outcome.resolvedO (Message.mk "id1" "call" none).id p] ∧
      p.message = joinMsgs [Response.mk "id1" "ab" (some true) none] ++
        (Response.mk "id1" "cd" (some false) none).message) ∧
    (∀ cs : List Response,
      (∀ r ∈ cs, r.id = (Message.mk "id1" "call" none).id ∧ isTerminal r = false) →
      (runEvents ((invoke SwitchBackend.init (Message.mk "id1" "call" none) false
          (Except.ok ())).1) cs).2 =
        cs.map fun _ => Outcome.accumulated (Message.mk "id1" "call" none).id)) ∧
    (runEvents ((invoke SwitchBackend.init (Message.mk "id1" "call" none) false
        (Except.ok ())).1)
      [Response.mk "id1" "ab" (some true) none,
        Response.mk "id1" "cd" (some false) none]).2 =
      [Outcome.accumulated "id1",
        Outcome.resolvedO "id1" (Response.mk "id1" "abcd" (some true) none)] :=
  ⟨⟨by decide, by decide, rfl, rfl⟩,
    C1_chunk_accumulation (Message.mk "id1" "call" none) false
      [Response.mk "id1" "ab" (some true) none]
      (Response.mk "id1" "cd" (some false) none)
      (by decide) (by decide) rfl rfl,
    by decide⟩

/-- C10: for a multi-chunk exchange, the value `invoke` resolves with is the
first chunk's envelope with only its `message` field replaced by the
concatenation of all chunk messages: the resolved envelope's `id` equals the
request id, and its `more` and `ok` fields retain the first chunk's values
(not the terminal chunk's). -/
theorem C10_first_envelope_retained (msg : Message) (hp : Bool) (f : Response)
    (rest : List Response) (t : Response) (_hmsg : msg.id ≠ "progress")
    (hrs : ∀ r ∈ f :: rest, r.id = msg.id ∧ isTerminal r = false)
    (htid : t.id = msg.id) (hterm : isTerminal t = true) :
    ∃ p : Response,
      (runEvents ((invoke SwitchBackend.init msg hp (Except.ok ())).1)
          ((f :: rest) ++ [t])).2 =
        ((f :: rest).map fun _ => Outcome.accumulated msg.id) ++
          [Outcome.resolvedO msg.id p] ∧
      p = { f with message := joinMsgs (f :: rest) ++ t.message } ∧
      p.id = msg.id ∧ p.more = f.more ∧ p.ok = f.ok := by
  have hid0 : mapGet ((invoke SwitchBackend.init msg hp (Except.ok ())).1).callbacks
      msg.id = some (CBEntry.completion none) := mapGet_set_self _ _ _
  obtain ⟨cbs', hrun, hget, _⟩ :=
    runEvents_nonterminal _ msg.id none (f :: rest) hid0 hrs
  have hgett : mapGet cbs' t.id = some (CBEntry.completion (accFold none (f :: rest))) := by
    rw [htid]; exact hget
  have hacc : accumulate (accFold none (f :: rest)) t =
      { f with message := joinMsgs (f :: rest) ++ t.message } := by
    rw [accFold_none_cons, accFold_some]
    rfl
  refine ⟨accumulate (accFold none (f :: rest)) t, ?_, hacc, ?_, ?_, ?_⟩
  · rw [runEvents_append, hrun]
    simp [runEvents, handleResponse_terminal ⟨cbs'⟩ _ t hgett hterm, htid]
  · rw [hacc]
    exact (hrs f (List.mem_cons_self f rest)).1
  · rw [hacc]
  · rw [hacc]

/-- Witness for C10: chunks `"ab"` (more true) then `"cd"` (more false); the
resolved envelope keeps the first chunk's `more = true`, not the terminal
chunk's `false`. -/
theorem C10_first_envelope_retained_witness :
    ((Message.mk "id2" "call" none).id ≠ "progress" ∧
      (∀ r ∈ [Response.mk "id2" "ab" (some true) none],
        r.id = (Message.mk "id2" "call" none).id ∧ isTerminal r = false) ∧
      (Response.mk "id2" "cd" (some false) none).id = (Message.mk "id2" "call" none).id ∧
      isTerminal (Response.mk "id2" "cd" (some false) none) = true) ∧
    (∃ p : Response,
      (runEvents ((invoke SwitchBackend.init (Message.mk "id2" "call" none) false
          (Except.ok ())).1)
        (([Response.mk "id2" "ab" (some true) none] : List Response) ++
          [Response.mk "id2" "cd" (some false) none])).2 =
        (([Response.mk "id2" "ab" (some true) none] : List Response).map
          fun _ => Outcome.accumulated (Message.mk "id2" "call" none).id) ++
          [Outcome.resolvedO (Message.mk "id2" "call" none).id p] ∧
      p = { Response.mk "id2" "ab" (some true) none with
              message := joinMsgs [Response.mk "id2" "ab" (some true) none] ++
                (Response.mk "id2" "cd" (some false) none).message } ∧
      p.id = (Message.mk "id2" "call" none).id ∧
      p.more = (Response.mk "id2" "ab" (some true) none).more ∧
      p.ok = (Response.mk "id2" "ab" (some true) none).ok) :=
  ⟨⟨by decide, by decide, rfl, rfl⟩,
    C10_first_envelope_retained (Message.mk "id2" "call" none) false
      (Response.mk "id2" "ab" (some true) none) []
      (Response.mk "id2" "cd" (some false) none)
      (by decide) (by decide) rfl rfl⟩

/-- C2: when a terminal chunk (one whose `more` is absent or false) is
dispatched for a pending request id, the per-id registry entry and the
progress entry are both removed in the very state in which the promise
resolution is delivered (the code deletes both at part_000 lines 326-327
before calling `resolve` at line 328), and a later duplicate or late chunk
bearing the same id leaves the registry unchanged and produces the
unknown-id outcome, neither invoking the completion callback again nor
resolving or rejecting any outstanding promise. -/
theorem C2_terminal_removes_entries (st : SwitchBackend) (reqId : String)
    (acc : Option Response) (t : Response)
    (hpend : mapGet st.callbacks reqId = some (CBEntry.completion acc))
    (hne : reqId ≠ "progress") (htid : t.id = reqId) (hterm : isTerminal t = true) :
    (handleResponse st t).2 = Outcome.resolvedO reqId (accumulate acc t) ∧
    mapGet (handleResponse st t).1.callbacks reqId = none ∧
    mapGet (handleResponse st t).1.callbacks "progress" = none ∧
    ∀ dup : Response, dup.id = reqId →
      handleResponse (handleResponse st t).1 dup =
        ((handleResponse st t).1, Outcome.unknownId reqId) := by
  have hpend' : mapGet st.callbacks t.id = some (CBEntry.completion acc) := by
    rw [htid]; exact hpend
  have hstep := handleResponse_terminal st acc t hpend' hterm
  rw [hstep]
  have hdel1 : mapGet (mapDelete (mapDelete st.callbacks t.id) "progress") reqId = none := by
    rw [mapGet_delete_ne _ _ _ hne, htid]
    exact mapGet_delete_self _ _
  refine ⟨by rw [htid], hdel1, mapGet_delete_self _ _, ?_⟩
  intro dup hdup
  simp [handleResponse, hdup, hdel1, hne]

/-- Witness for C2 at a concrete pending entry and terminal chunk. -/
theorem C2_terminal_removes_entries_witness :
    (mapGet [("r1", CBEntry.completion none)] "r1" = some (CBEntry.completion none) ∧
      ("r1" : String) ≠ "progress" ∧
      (Response.mk "r1" "done" none none).id = "r1" ∧
      isTerminal (Response.mk "r1" "done" none none) = true) ∧
    ((handleResponse ⟨[("r1", CBEntry.completion none)]⟩
        (Response.mk "r1" "done" none none)).2 =
      Outcome.resolvedO "r1" (accumulate none (Response.mk "r1" "done" none none)) ∧
    mapGet (handleResponse ⟨[("r1", CBEntry.completion none)]⟩
        (Response.mk "r1" "done" none none)).1.callbacks "r1" = none ∧
    mapGet (handleResponse ⟨[("r1", CBEntry.completion none)]⟩
        (Response.mk "r1" "done" none none)).1.callbacks "progress" = none ∧
    ∀ dup : Response, dup.id = "r1" →
      handleResponse (handleResponse ⟨[("r1", CBEntry.completion none)]⟩
          (Response.mk "r1" "done" none none)).1 dup =
        ((handleResponse ⟨[("r1", CBEntry.completion none)]⟩
            (Response.mk "r1" "done" none none)).1, Outcome.unknownId "r1")) :=
  ⟨⟨by decide, by decide, rfl, rfl⟩,
    C2_terminal_removes_entries ⟨[("r1", CBEntry.completion none)]⟩ "r1" none
      (Response.mk "r1" "done" none none) (by decide) (by decide) rfl rfl⟩

/-- C3: every call to `invoke` registers a progress entry under the reserved
key `"progress"` — the supplied callback's wrapper when one is given, a no-op
otherwise — so a progress event arriving afterwards is handled without
raising and without disturbing the registry; and for a request invoked
without a progress callback, once its terminal chunk is processed the
`"progress"` key is absent from the registry. -/
theorem C3_progress_registration (st : SwitchBackend) (msg : Message) (hp : Bool)
    (hne : msg.id ≠ "progress") :
    mapGet ((invoke st msg hp (Except.ok ())).1).callbacks "progress" =
      some (CBEntry.progressCb hp) ∧
    (∀ pr : Response, pr.id = "progress" →
      handleResponse (invoke st msg hp (Except.ok ())).1 pr =
        ((invoke st msg hp (Except.ok ())).1, Outcome.progressHandled)) ∧
    (∀ t : Response, t.id = msg.id → isTerminal t = true →
      mapGet ((handleResponse (invoke st msg false (Except.ok ())).1 t).1).callbacks
        "progress" = none) := by
  have hprog : mapGet ((invoke st msg hp (Except.ok ())).1).callbacks "progress" =
      some (CBEntry.progressCb hp) := by
    show mapGet (mapSet (mapSet st.callbacks "progress" (CBEntry.progressCb hp))
      msg.id (CBEntry.completion none)) "progress" = _
    rw [mapGet_set_ne _ _ _ _ (fun hh => hne hh.symm)]
    exact mapGet_set_self _ _ _
  refine ⟨hprog, ?_, ?_⟩
  · intro pr hpr
    have : mapGet ((invoke st msg hp (Except.ok ())).1).callbacks pr.id =
        some (CBEntry.progressCb hp) := by rw [hpr]; exact hprog
    simp [handleResponse, this]
  · intro t htid hterm
    have hpend : mapGet ((invoke st msg false (Except.ok ())).1).callbacks t.id =
        some (CBEntry.completion none) := by
      rw [htid]; exact mapGet_set_self _ _ _
    rw [handleResponse_terminal _ none t hpend hterm]
    exact mapGet_delete_self _ _

/-- Witness for C3 at a concrete invocation. -/
theorem C3_progress_registration_witness :
    (Message.mk "m1" "unzip" none).id ≠ "progress" ∧
    (mapGet ((invoke SwitchBackend.init (Message.mk "m1" "unzip" none) true
        (Except.ok ())).1).callbacks "progress" = some (CBEntry.progressCb true) ∧
    (∀ pr : Response, pr.id = "progress" →
      handleResponse (invoke SwitchBackend.init (Message.mk "m1" "unzip" none) true
          (Except.ok ())).1 pr =
        ((invoke SwitchBackend.init (Message.mk "m1" "unzip" none) true
            (Except.ok ())).1, Outcome.progressHandled)) ∧
    (∀ t : Response, t.id = (Message.mk "m1" "unzip" none).id → isTerminal t = true →
      mapGet ((handleResponse (invoke SwitchBackend.init (Message.mk "m1" "unzip" none)
          false (Except.ok ())).1 t).1).callbacks "progress" = none)) :=
  ⟨by decide,
    C3_progress_registration SwitchBackend.init (Message.mk "m1" "unzip" none) true
      (by decide)⟩

/-- C4: if handing the serialized envelope to the transport send primitive
throws during `invoke`, the progress entry is removed, the returned promise
rejects with a diagnostic string, and the per-id registry entry remains
registered (it was inserted before the send and the catch branch at part_000
lines 334-338 deletes only the progress entry). -/
theorem C4_send_failure (st : SwitchBackend) (msg : Message) (hp : Bool)
    (e : String) (hne : msg.id ≠ "progress") :
    (invoke st msg hp (Except.error e)).2 = InvokeResult.rejected ("Error: " ++ e) ∧
    mapGet ((invoke st msg hp (Except.error e)).1).callbacks "progress" = none ∧
    mapGet ((invoke st msg hp (Except.error e)).1).callbacks msg.id =
      some (CBEntry.completion none) := by
  refine ⟨rfl, mapGet_delete_self _ _, ?_⟩
  show mapGet (mapDelete (mapSet (mapSet st.callbacks "progress"
    (CBEntry.progressCb hp)) msg.id (CBEntry.completion none)) "progress") msg.id = _
  rw [mapGet_delete_ne _ _ _ hne]
  exact mapGet_set_self _ _ _

/-- Witness for C4 at a concrete failing send. -/
theorem C4_send_failure_witness :
    (Message.mk "m4" "ping" none).id ≠ "progress" ∧
    ((invoke SwitchBackend.init (Message.mk "m4" "ping" none) false
        (Except.error "boom")).2 = InvokeResult.rejected ("Error: " ++ "boom") ∧
    mapGet ((invoke SwitchBackend.init (Message.mk "m4" "ping" none) false
        (Except.error "boom")).1).callbacks "progress" = none ∧
    mapGet ((invoke SwitchBackend.init (Message.mk "m4" "ping" none) false
        (Except.error "boom")).1).callbacks "m4" = some (CBEntry.completion none)) :=
  ⟨by decide,
    C4_send_failure SwitchBackend.init (Message.mk "m4" "ping" none) false "boom"
      (by decide)⟩

/-- C5: the inbound dispatch handler never propagates an exception: an event
whose payload fails to parse as JSON is dropped with the registry unchanged
and no promise resolved or rejected; an event whose id matches no registered
callback is dropped with the registry unchanged; and a registered callback
that raises is caught (part_000 lines 279-281), leaving the registry
unchanged, so a second, independent pending request still resolves correctly
afterward. -/
theorem C5_dispatch_isolation :
    (∀ st : SwitchBackend, handleEvent st none = (st, Outcome.parseError)) ∧
    (∀ (st : SwitchBackend) (r : Response), mapGet st.callbacks r.id = none →
      handleResponse st r =
        (st, if r.id = "progress" then Outcome.progressDropped
          else Outcome.unknownId r.id)) ∧
    (∀ (st : SwitchBackend) (a b : String) (acc : Option Response) (ra tb : Response),
      mapGet st.callbacks a = some CBEntry.throwing → ra.id = a →
      mapGet st.callbacks b = some (CBEntry.completion acc) → tb.id = b →
      isTerminal tb = true →
      handleResponse st ra = (st, Outcome.callbackFailed a) ∧
      (handleResponse (handleResponse st ra).1 tb).2 =
        Outcome.resolvedO b (accumulate acc tb)) := by
  refine ⟨fun st => rfl, ?_, ?_⟩
  · intro st r hnone
    by_cases hp : r.id = "progress"
    · rw [hp] at hnone
      simp [handleResponse, hp, hnone]
    · simp [handleResponse, hnone, hp]
  · intro st a b acc ra tb hthrow hra hb htb hterm
    have hfail : handleResponse st ra = (st, Outcome.callbackFailed a) := by
      simp [handleResponse, hra, hthrow]
    refine ⟨hfail, ?_⟩
    rw [hfail]
    have hb' : mapGet st.callbacks tb.id = some (CBEntry.completion acc) := by
      rw [htb]; exact hb
    rw [handleResponse_terminal st acc tb hb' hterm, htb]

/-- Witness for C5: a registry holding a throwing callback at `"x"` and a
pending completion at `"y"`; the throwing dispatch is isolated and `"y"`
still resolves. -/
theorem C5_dispatch_isolation_witness :
    (mapGet [("x", CBEntry.throwing), ("y", CBEntry.completion none)] "x" =
        some CBEntry.throwing ∧
      (Response.mk "x" "kaboom" none none).id = "x" ∧
      mapGet [("x", CBEntry.throwing), ("y", CBEntry.completion none)] "y" =
        some (CBEntry.completion none) ∧
      (Response.mk "y" "fine" none none).id = "y" ∧
      isTerminal (Response.mk "y" "fine" none none) = true ∧
      mapGet ([] : List (String × CBEntry)) "z" = none) ∧
    handleEvent ⟨[]⟩ none = (⟨[]⟩, Outcome.parseError) ∧
    handleResponse ⟨[]⟩ (Response.mk "z" "stray" none none) =
      (⟨[]⟩, Outcome.unknownId "z") ∧
    (handleResponse ⟨[("x", CBEntry.throwing), ("y", CBEntry.completion none)]⟩
        (Response.mk "x" "kaboom" none none) =
      (⟨[("x", CBEntry.throwing), ("y", CBEntry.completion none)]⟩,
        Outcome.callbackFailed "x") ∧
    (handleResponse (handleResponse
        ⟨[("x", CBEntry.throwing), ("y", CBEntry.completion none)]⟩
        (Response.mk "x" "kaboom" none none)).1
        (Response.mk "y" "fine" none none)).2 =
      Outcome.resolvedO "y" (accumulate none (Response.mk "y" "fine" none none))) :=
  ⟨⟨by decide, rfl, by decide, rfl, rfl, rfl⟩,
    C5_dispatch_isolation.1 ⟨[]⟩,
    C5_dispatch_isolation.2.1 ⟨[]⟩ (Response.mk "z" "stray" none none) rfl,
    (C5_dispatch_isolation.2.2 ⟨[("x", CBEntry.throwing), ("y", CBEntry.completion none)]⟩
      "x" "y" none (Response.mk "x" "kaboom" none none) (Response.mk "y" "fine" none none)
      (by decide) rfl (by decide) rfl rfl)⟩

/-- C6 counterexample, three reachable states refuting the claimed key-set
characterization:
(i) after a single `invoke` without a progress callback — so no
progress-capable request is in flight — the key set is the request id plus
the reserved `"progress"` key, holding the no-op installed at part_000
line 312, refuting "the progress key only when a progress-capable request is
in flight";
(ii) after an `invoke` whose transport send threw, the returned promise is
already rejected — the identifier is not awaiting resolution — yet the
per-id entry is still registered (the leak of part_000 lines 334-338),
refuting "the key set is exactly the set of identifiers currently awaiting
resolution";
(iii) after invoking a progress-capable request and then a second,
callback-less request whose terminal chunk arrives, the progress key is
absent although the progress-capable request is still in flight (the
terminal branch deletes it at part_000 line 327), so the progress key's
presence tracks neither progress-capable requests nor in-flight requests in
general. -/
theorem C6_progress_key_without_callback :
    (keysOf (run SwitchBackend.init
        [Action.inv (Message.mk "a1" "ping" none) false (Except.ok ())]).callbacks =
      ["progress", "a1"] ∧
    mapGet (run SwitchBackend.init
        [Action.inv (Message.mk "a1" "ping" none) false (Except.ok ())]).callbacks
      "progress" = some (CBEntry.progressCb false)) ∧
    ((invoke SwitchBackend.init (Message.mk "a3" "ping" none) false
        (Except.error "boom")).2 = InvokeResult.rejected ("Error: " ++ "boom") ∧
    mapGet (run SwitchBackend.init
        [Action.inv (Message.mk "a3" "ping" none) false (Except.error "boom")]).callbacks
      "a3" = some (CBEntry.completion none)) ∧
    (mapGet (run SwitchBackend.init
        [Action.inv (Message.mk "a4" "download_file" none) true (Except.ok ()),
          Action.inv (Message.mk "b4" "ping" none) false (Except.ok ()),
          Action.ev (some (Response.mk "b4" "done" none none))]).callbacks
      "a4" = some (CBEntry.completion none) ∧
    mapGet (run SwitchBackend.init
        [Action.inv (Message.mk "a4" "download_file" none) true (Except.ok ()),
          Action.inv (Message.mk "b4" "ping" none) false (Except.ok ()),
          Action.ev (some (Response.mk "b4" "done" none none))]).callbacks
      "progress" = none) :=
  ⟨⟨rfl, rfl⟩, ⟨rfl, rfl⟩, rfl, rfl⟩

/-- C6 amended: at every state reachable from the initial engine by any
trace of `invoke` calls and inbound events, at most one registry entry
exists per identifier (the key list is duplicate-free); an identifier other
than the reserved `"progress"` key has a registered entry — its completion
callback — exactly when the request is open, that is, some `invoke` bore
that identifier (whether or not its send succeeded: a failed send leaves the
already-inserted entry registered) and no terminal chunk bearing it has been
dispatched since; and every successful `invoke` (re)binds the `"progress"`
key — to the supplied callback's wrapper when one was given and to a no-op
otherwise — so its presence does not indicate a progress-capable request. -/
theorem C6_registry_characterization :
    (∀ acts : List Action, (keysOf (run SwitchBackend.init acts).callbacks).Nodup) ∧
    (∀ (acts : List Action) (x : String), x ≠ "progress" →
      (openReq x acts = true →
        ∃ acc, mapGet (run SwitchBackend.init acts).callbacks x =
          some (CBEntry.completion acc)) ∧
      (openReq x acts = false →
        mapGet (run SwitchBackend.init acts).callbacks x = none)) ∧
    (∀ (st : SwitchBackend) (msg : Message) (hp : Bool), msg.id ≠ "progress" →
      mapGet ((invoke st msg hp (Except.ok ())).1).callbacks "progress" =
        some (CBEntry.progressCb hp)) := by
  refine ⟨?_, ?_, ?_⟩
  · intro acts
    exact run_nodup acts SwitchBackend.init (by simp [SwitchBackend.init, keysOf])
  · intro acts x hx
    exact openReqFold_registry acts x hx SwitchBackend.init false
      (fun h => absurd h (by decide)) (fun _ => rfl)
  · intro st msg hp hne
    show mapGet (mapSet (mapSet st.callbacks "progress" (CBEntry.progressCb hp))
      msg.id (CBEntry.completion none)) "progress" = _
    rw [mapGet_set_ne _ _ _ _ (fun hh => hne hh.symm)]
    exact mapGet_set_self _ _ _

/-- Witness for the amended C6: the characterization evaluated on a concrete
trace in which `"zz"` is open and `"done1"` was terminally resolved, and the
progress binding after a concrete invocation. -/
theorem C6_registry_characterization_witness :
    (keysOf (run SwitchBackend.init
        [Action.inv (Message.mk "zz" "get_request" none) true (Except.ok ()),
          Action.inv (Message.mk "done1" "ping" none) false (Except.ok ()),
          Action.ev (some (Response.mk "done1" "ok" none none))]).callbacks).Nodup ∧
    (("zz" : String) ≠ "progress" ∧
      openReq "zz"
        [Action.inv (Message.mk "zz" "get_request" none) true (Except.ok ()),
          Action.inv (Message.mk "done1" "ping" none) false (Except.ok ()),
          Action.ev (some (Response.mk "done1" "ok" none none))] = true ∧
      ∃ acc, mapGet (run SwitchBackend.init
          [Action.inv (Message.mk "zz" "get_request" none) true (Except.ok ()),
            Action.inv (Message.mk "done1" "ping" none) false (Except.ok ()),
            Action.ev (some (Response.mk "done1" "ok" none none))]).callbacks "zz" =
        some (CBEntry.completion acc)) ∧
    (("done1" : String) ≠ "progress" ∧
      openReq "done1"
        [Action.inv (Message.mk "zz" "get_request" none) true (Except.ok ()),
          Action.inv (Message.mk "done1" "ping" none) false (Except.ok ()),
          Action.ev (some (Response.mk "done1" "ok" none none))] = false ∧
      mapGet (run SwitchBackend.init
          [Action.inv (Message.mk "zz" "get_request" none) true (Except.ok ()),
            Action.inv (Message.mk "done1" "ping" none) false (Except.ok ()),
            Action.ev (some (Response.mk "done1" "ok" none none))]).callbacks "done1" =
        none) ∧
    ((Message.mk "a2" "download_file" none).id ≠ "progress" ∧
      mapGet ((invoke SwitchBackend.init (Message.mk "a2" "download_file" none) true
          (Except.ok ())).1).callbacks "progress" = some (CBEntry.progressCb true)) :=
  ⟨C6_registry_characterization.1
      [Action.inv (Message.mk "zz" "get_request" none) true (Except.ok ()),
        Action.inv (Message.mk "done1" "ping" none) false (Except.ok ()),
        Action.ev (some (Response.mk "done1" "ok" none none))],
    ⟨by decide, rfl,
      (C6_registry_characterization.2.1
        [Action.inv (Message.mk "zz" "get_request" none) true (Except.ok ()),
          Action.inv (Message.mk "done1" "ping" none) false (Except.ok ()),
          Action.ev (some (Response.mk "done1" "ok" none none))]
        "zz" (by decide)).1 rfl⟩,
    ⟨by decide, rfl,
      (C6_registry_characterization.2.1
        [Action.inv (Message.mk "zz" "get_request" none) true (Except.ok ()),
          Action.inv (Message.mk "done1" "ping" none) false (Except.ok ()),
          Action.ev (some (Response.mk "done1" "ok" none none))]
        "done1" (by decide)).2 rfl⟩,
    ⟨by decide,
      C6_registry_characterization.2.2 SwitchBackend.init
        (Message.mk "a2" "download_file" none) true (by decide)⟩⟩

/-- C7: invoking `"read_file"` with argument `"sd:/realfile"` (the facade
builds the envelope with call name `read_file` and the single path argument),
against a host that replies with an envelope carrying `ok: true` and message
`"contents"`, resolves the request and the facade's `customRequest` decoding
accepts it with the payload `"contents"`; the same call answered with
`ok: false` and message `"nope"` resolves the engine promise but the facade
decoding rejects with an error string that contains `"nope"`. -/
theorem C7_read_file_scenario (i fp : String) :
    ((handleResponse ((invoke SwitchBackend.init (Message.mk i "read_file" (some [fp]))
        false (Except.ok ())).1) (Response.mk i "contents" none (some true))).2 =
      Outcome.resolvedO i (Response.mk i "contents" none (some true)) ∧
    customRequestDecode (Response.mk i "contents" none (some true)) =
      Except.ok "contents") ∧
    ((handleResponse ((invoke SwitchBackend.init (Message.mk i "read_file" (some [fp]))
        false (Except.ok ())).1) (Response.mk i "nope" none (some false))).2 =
      Outcome.resolvedO i (Response.mk i "nope" none (some false)) ∧
    ∃ s : String, customRequestDecode (Response.mk i "nope" none (some false)) =
        Except.error s ∧ jsIncludes s "nope" = true) := by
  have h1 : mapGet ((invoke SwitchBackend.init (Message.mk i "read_file" (some [fp]))
      false (Except.ok ())).1).callbacks i = some (CBEntry.completion none) :=
    mapGet_set_self _ _ _
  refine ⟨⟨?_, rfl⟩, ⟨?_, "Operation failed on the backend, reason: " ++ "nope",
    rfl, by decide⟩⟩
  · rw [handleResponse_terminal _ none (Response.mk i "contents" none (some true)) h1 rfl]
    rfl
  · rw [handleResponse_terminal _ none (Response.mk i "nope" none (some false)) h1 rfl]
    rfl

/-- C8: invoking with call name `"ping"` against a host that echoes the id
and replies with message `"pong"` and `more: false` resolves the promise
returned by `invoke` with the envelope whose decoded payload (its message
field, equally the message extracted by the `OkOrError` parser) is
`"pong"`. -/
theorem C8_ping_scenario (i : String) :
    (handleResponse ((invoke SwitchBackend.init (Message.mk i "ping" none) false
        (Except.ok ())).1) (Response.mk i "pong" (some false) none)).2 =
      Outcome.resolvedO i (Response.mk i "pong" (some false) none) ∧
    (Response.mk i "pong" (some false) none).message = "pong" ∧
    (OkOrError.from (Response.mk i "pong" (some false) none)).getMessage = "pong" := by
  have h1 : mapGet ((invoke SwitchBackend.init (Message.mk i "ping" none) false
      (Except.ok ())).1).callbacks i = some (CBEntry.completion none) :=
    mapGet_set_self _ _ _
  refine ⟨?_, rfl, rfl⟩
  rw [handleResponse_terminal _ none (Response.mk i "pong" (some false) none) h1 rfl]
  rfl

/-- C9: the fire-and-forget `send` serializes the envelope and forwards it
to the transport with no registry interaction and no returned result; with
the host transport binding absent it degrades to a logged-warning no-op that
forwards nothing, does not throw (the model is a total function), and still
registers no pending entry. -/
theorem C9_send_no_registry (st : SwitchBackend) (nx : Bool) (msg : Message) :
    (SwitchBackend.send st nx msg).1 = st ∧
    (SwitchBackend.send st nx msg).2 = (if nx then [msg] else []) ∧
    (SwitchBackend.send st false msg).1 = st ∧
    (SwitchBackend.send st false msg).2 = ([] : List Message) :=
  ⟨rfl, rfl, rfl, rfl⟩

end NxReq
